import Mathlib

/-!
Shallow embedding of `src/main.rs` of the `vid` repository: a batch
keyframe extractor that discovers video files under an input root,
filters them by a comma-separated extension allow-list, and for each
file invokes an external decoder (ffmpeg) writing numbered JPEG frames
into an output directory derived from the file stem.  The embedding
models Rust paths as component lists, the filesystem as an association
list from paths to entry kinds, the external decoder as an oracle from
argument lists to exit statuses, and rayon's `try_for_each` dispatch as
its sequential linearization (exact for a single-threaded pool, and one
admissible schedule in general).  String lowercasing models Rust
`to_lowercase` on ASCII data.
-/

namespace Vid

/-- Lowercase every character of a string (models Rust `to_lowercase`
on ASCII strings; `Char.toLower` lowercases exactly the ASCII uppercase
letters). -/
def lowerStr (s : String) : String :=
  String.mk (s.data.map Char.toLower)

/-- Split a character list at every occurrence of `sep`, keeping empty
pieces (models Rust `str::split(char)`; structural, so concrete inputs
evaluate in the kernel). -/
def splitOnChar (sep : Char) : List Char → List (List Char)
  | [] => [[]]
  | c :: cs =>
    match splitOnChar sep cs with
    | [] => [[c]]
    | h :: t => if c = sep then [] :: h :: t else (c :: h) :: t

/-- Remove leading and trailing whitespace (models Rust `str::trim` on
ASCII data). -/
def trimChars (s : List Char) : List Char :=
  ((s.dropWhile Char.isWhitespace).reverse.dropWhile Char.isWhitespace).reverse

/-- Embedding of `get_video_extensions` (main.rs lines 34-38): split the
`--extensions` flag value on commas, trim each segment and lowercase it. -/
def get_video_extensions (exts : String) : List String :=
  (splitOnChar ',' exts.data).map (fun s => lowerStr (String.mk (trimChars s)))

/-- A Rust `Path`, modelled as its list of components (after the usual
normalization that drops `.` components; a `..` component is kept, as
Rust keeps it). -/
structure RPath where
  components : List String
deriving DecidableEq, Repr

/-- Rust `Path::file_name`: the last component, unless it is `..` or the
path has no components. -/
def RPath.fileName (p : RPath) : Option String :=
  match p.components.getLast? with
  | none => none
  | some c => if c = ".." then none else some c

/-- Join character-list pieces with a separator character (used to
rebuild the part of a file name before its final dot, and to render
paths). -/
def joinWith (sep : Char) : List (List Char) → List Char
  | [] => []
  | [p] => p
  | p :: q :: ps => p ++ sep :: joinWith sep (q :: ps)

/-- Rust `Path::file_stem`: the file name up to (excluding) its final
dot, except that a name whose part before the final dot is empty (no dot
at all, or a leading dot only) is its own stem. -/
def RPath.fileStem (p : RPath) : Option String :=
  match p.fileName with
  | none => none
  | some name =>
    let parts := splitOnChar '.' name.data
    let before := joinWith '.' parts.dropLast
    if before = [] then some name else some (String.mk before)

/-- Rust `Path::extension`: the file name after its final dot, provided
the part before that dot is nonempty; `none` otherwise. -/
def RPath.extensionOf (p : RPath) : Option String :=
  match p.fileName with
  | none => none
  | some name =>
    let parts := splitOnChar '.' name.data
    let before := joinWith '.' parts.dropLast
    if before = [] then none else (parts.getLast?).map String.mk

/-- Rust `Path::join` with a single normal component (the code only ever
joins file stems and the frame pattern, never absolute paths). -/
def RPath.join (p : RPath) (c : String) : RPath :=
  ⟨p.components ++ [c]⟩

/-- Rendering of a path as a string (Rust `to_string_lossy`), used for
the decoder's `-i` argument and the output pattern. -/
def RPath.toStr (p : RPath) : String :=
  String.mk (joinWith '/' (p.components.map String.data))

/-- Kind of a filesystem entry. -/
inductive FsKind
  | file
  | dir
deriving DecidableEq, Repr

/-- A snapshot of the filesystem: an association list from paths to
entry kinds (first match wins). -/
structure Fs where
  entries : List (RPath × FsKind)
deriving DecidableEq, Repr

/-- Kind of the entry at a path, if any. -/
def Fs.lookup (fs : Fs) (p : RPath) : Option FsKind :=
  (fs.entries.find? (fun e => e.1 = p)).map (fun e => e.2)

/-- Embedding of Rust `Path::exists` (main.rs line 85): true iff any
entry — of any kind — is present at the path. -/
def Fs.existsAt (fs : Fs) (p : RPath) : Bool :=
  (fs.lookup p).isSome

/-- All ancestors of a path, the path itself included. -/
def RPath.ancestors (p : RPath) : List RPath :=
  (List.range (p.components.length + 1)).map (fun n => ⟨p.components.take n⟩)

/-- Embedding of `std::fs::create_dir_all` (main.rs line 89): fails when
a non-directory entry occupies the path or one of its ancestors,
otherwise records a directory at the path and at every missing
ancestor. -/
def Fs.mkdirAll (fs : Fs) (p : RPath) : Option Fs :=
  if p.ancestors.all (fun a => fs.lookup a ≠ some FsKind.file) then
    some ⟨(p.ancestors.filter (fun a => fs.lookup a = none)).map
            (fun a => (a, FsKind.dir)) ++ fs.entries⟩
  else
    none

/-- One entry met while walking the input tree: its path and whether it
is a regular file (walkdir yields directories too; `is_file` screens
them out). -/
structure DirEntry where
  path : RPath
  isFile : Bool
deriving DecidableEq, Repr

/-- Embedding of the extension probe in main's filter (main.rs lines
54-57): `extension().map(to_lowercase).unwrap_or_default()`, so a file
without an extension is treated as having extension `""`. -/
def entryExt (p : RPath) : String :=
  ((p.extensionOf).map lowerStr).getD ""

/-- Embedding of the discovery predicate (main.rs lines 52-60): the
entry is a regular file and its lowercased extension is a member of the
comma-split allow-list. -/
def isEligible (exts : String) (e : DirEntry) : Bool :=
  e.isFile && (get_video_extensions exts).contains (entryExt e.path)

/-- Embedding of the discovery pipeline (main.rs lines 49-62): the paths
of the walked entries that pass the filter. -/
def discover (exts : String) (entries : List DirEntry) : List RPath :=
  (entries.filter (isEligible exts)).map (fun e => e.path)

/-- Errors `process_video` can report, one constructor per `bail` /
`context` site reachable in the model. -/
inductive ExtractError
  | invalidName
  | dirCreateError (dir : RPath)
  | decoderError (status : Int)
deriving DecidableEq, Repr

deriving instance DecidableEq for Except

/-- The decoder argument list built at main.rs lines 99-108, verbatim. -/
def ffmpegArgs (videoPath : RPath) (quality : Nat) (outputPattern : String) :
    List String :=
  ["-hwaccel", "auto",
   "-i", videoPath.toStr,
   "-vf", "select=eq(pict_type\\,I)",
   "-vsync", "vfr",
   "-q:v", toString quality,
   "-threads", "2",
   "-loglevel", "error",
   outputPattern]

/-- Observable outcome of one `process_video` call: its `Result`, the
filesystem afterwards, the decoder invocations it performed, and the
output directory it computed (if it got that far). -/
structure ExtractResult where
  result : Except ExtractError Unit
  fs : Fs
  invocations : List (List String)
  outDir : Option RPath
deriving Repr

/-- Embedding of `process_video` (main.rs lines 75-117): derive the
output directory from the input's file stem (failing with `invalidName`
when there is none), return `Ok` at once if anything exists at that
path, otherwise create the directory, invoke the decoder, and map a
non-zero exit status to `decoderError`. -/
def process_video (decoder : List String → Int) (video_path : RPath)
    (output_root : RPath) (quality : Nat) (fs : Fs) : ExtractResult :=
  match video_path.fileStem with
  | none => ⟨Except.error ExtractError.invalidName, fs, [], none⟩
  | some stem =>
    let output_dir := output_root.join stem
    if fs.existsAt output_dir then
      ⟨Except.ok (), fs, [], some output_dir⟩
    else
      match fs.mkdirAll output_dir with
      | none =>
        ⟨Except.error (ExtractError.dirCreateError output_dir), fs, [],
         some output_dir⟩
      | some fs2 =>
        let output_pattern := (output_dir.join "keyframe_%05d.jpg").toStr
        let args := ffmpegArgs video_path quality output_pattern
        let status := decoder args
        if status = 0 then
          ⟨Except.ok (), fs2, [args], some output_dir⟩
        else
          ⟨Except.error (ExtractError.decoderError status), fs2, [args],
           some output_dir⟩

/-- Sequential linearization of `video_paths.par_iter().try_for_each`
(main.rs lines 67-70): process inputs in order, threading the
filesystem; record one `(path, result)` outcome per task actually
executed; stop at the first failing task and report it with its input
path attached (the `with_context` at line 69), as rayon's
`try_for_each` does once a closure has returned an error. -/
def runBatch (decoder : List String → Int) (output_root : RPath)
    (quality : Nat) :
    Fs → List RPath →
      Fs × List (RPath × Except ExtractError Unit) ×
        Except (RPath × ExtractError) Unit
  | fs, [] => (fs, [], Except.ok ())
  | fs, p :: rest =>
    let r := process_video decoder p output_root quality fs
    match r.result with
    | Except.ok _ =>
      let t := runBatch decoder output_root quality r.fs rest
      (t.1, (p, Except.ok ()) :: t.2.1, t.2.2)
    | Except.error e =>
      (r.fs, [(p, Except.error e)], Except.error (p, e))

end Vid

namespace Vid

theorem process_video_no_stem (decoder : List String → Int) (vp root : RPath) (q : Nat) (fs : Fs)
    (h : vp.fileStem = none) :
    process_video decoder vp root q fs =
      ⟨Except.error ExtractError.invalidName, fs, [], none⟩ := by
  unfold process_video; rw [h]

theorem process_video_skip (decoder : List String → Int) (vp root : RPath) (q : Nat) (fs : Fs)
    (stem : String) (h : vp.fileStem = some stem)
    (hex : fs.existsAt (root.join stem) = true) :
    process_video decoder vp root q fs = ⟨Except.ok (), fs, [], some (root.join stem)⟩ := by
  unfold process_video; rw [h]; simp [hex]

theorem process_video_mkfail (decoder : List String → Int) (vp root : RPath) (q : Nat) (fs : Fs)
    (stem : String) (h : vp.fileStem = some stem)
    (hex : fs.existsAt (root.join stem) = false)
    (hmk : fs.mkdirAll (root.join stem) = none) :
    process_video decoder vp root q fs =
      ⟨Except.error (ExtractError.dirCreateError (root.join stem)), fs, [],
       some (root.join stem)⟩ := by
  unfold process_video; rw [h]; simp [hex, hmk]

theorem process_video_fresh (decoder : List String → Int) (vp root : RPath) (q : Nat) (fs fs2 : Fs)
    (stem : String) (h : vp.fileStem = some stem)
    (hex : fs.existsAt (root.join stem) = false)
    (hmk : fs.mkdirAll (root.join stem) = some fs2) :
    process_video decoder vp root q fs =
      (if decoder (ffmpegArgs vp q ((root.join stem).join "keyframe_%05d.jpg").toStr) = 0 then
        ⟨Except.ok (), fs2,
         [ffmpegArgs vp q ((root.join stem).join "keyframe_%05d.jpg").toStr],
         some (root.join stem)⟩
      else
        ⟨Except.error (ExtractError.decoderError
            (decoder (ffmpegArgs vp q ((root.join stem).join "keyframe_%05d.jpg").toStr))), fs2,
         [ffmpegArgs vp q ((root.join stem).join "keyframe_%05d.jpg").toStr],
         some (root.join stem)⟩) := by
  unfold process_video; rw [h]; simp [hex, hmk]

end Vid

namespace Vid

theorem runBatch_nil (decoder : List String → Int) (root : RPath) (q : Nat) (fs : Fs) :
    runBatch decoder root q fs [] = (fs, [], Except.ok ()) := rfl

theorem runBatch_cons_ok (decoder : List String → Int) (root : RPath) (q : Nat) (fs : Fs)
    (p : RPath) (rest : List RPath)
    (h : (process_video decoder p root q fs).result = Except.ok ()) :
    runBatch decoder root q fs (p :: rest) =
      ((runBatch decoder root q (process_video decoder p root q fs).fs rest).1,
       (p, Except.ok ()) ::
         (runBatch decoder root q (process_video decoder p root q fs).fs rest).2.1,
       (runBatch decoder root q (process_video decoder p root q fs).fs rest).2.2) := by
  simp only [runBatch, h]

theorem runBatch_cons_err (decoder : List String → Int) (root : RPath) (q : Nat) (fs : Fs)
    (p : RPath) (rest : List RPath) (e : ExtractError)
    (h : (process_video decoder p root q fs).result = Except.error e) :
    runBatch decoder root q fs (p :: rest) =
      ((process_video decoder p root q fs).fs, [(p, Except.error e)],
       Except.error (p, e)) := by
  simp only [runBatch, h]

end Vid

namespace Vid

theorem self_mem_ancestors (p : RPath) : p ∈ p.ancestors := by
  unfold RPath.ancestors
  refine List.mem_map.mpr ⟨p.components.length, ?_, ?_⟩
  · exact List.mem_range.mpr (Nat.lt_succ_self _)
  · simp [List.take_length]

theorem lookup_append (l1 l2 : List (RPath × FsKind)) (p : RPath) :
    Fs.lookup ⟨l1 ++ l2⟩ p =
      ((l1.find? (fun e => e.1 = p)).or (l2.find? (fun e => e.1 = p))).map
        (fun e => e.2) := by
  unfold Fs.lookup
  rw [List.find?_append]

theorem mkdirAll_lookup_dir (fs fs2 : Fs) (p : RPath)
    (hnone : fs.lookup p = none) (hmk : fs.mkdirAll p = some fs2) :
    fs2.lookup p = some FsKind.dir := by
  unfold Fs.mkdirAll at hmk
  split at hmk
  · cases hmk
    rw [lookup_append]
    have hmem : (p, FsKind.dir) ∈
        (p.ancestors.filter (fun a => fs.lookup a = none)).map
          (fun a => (a, FsKind.dir)) :=
      List.mem_map.mpr ⟨p, List.mem_filter.mpr ⟨self_mem_ancestors p, by simp [hnone]⟩, rfl⟩
    have hsome : (((p.ancestors.filter (fun a => fs.lookup a = none)).map
        (fun a => (a, FsKind.dir))).find? (fun e => e.1 = p)).isSome := by
      rw [List.find?_isSome]
      exact ⟨(p, FsKind.dir), hmem, by simp⟩
    obtain ⟨a, ha⟩ := Option.isSome_iff_exists.mp hsome
    have hsnd : a.2 = FsKind.dir := by
      have hamem := List.mem_of_find?_eq_some ha
      obtain ⟨b, _, hb⟩ := List.mem_map.mp hamem
      rw [← hb]
    rw [ha]
    simp [Option.or, hsnd]
  · cases hmk

theorem runBatch_cases (decoder : List String → Int) (root : RPath) (q : Nat) :
    ∀ (l : List RPath) (fs : Fs),
      ((runBatch decoder root q fs l).2.2 = Except.ok () ∧
        (runBatch decoder root q fs l).2.1.map Prod.fst = l ∧
        ∀ pr ∈ (runBatch decoder root q fs l).2.1, pr.2 = Except.ok ()) ∨
      (∃ p e pre rest, l = pre.map Prod.fst ++ p :: rest ∧
        (runBatch decoder root q fs l).2.1 = pre ++ [(p, Except.error e)] ∧
        (runBatch decoder root q fs l).2.2 = Except.error (p, e) ∧
        ∀ pr ∈ pre, pr.2 = Except.ok ()) := by
  intro l
  induction l with
  | nil =>
    intro fs
    left
    refine ⟨rfl, rfl, ?_⟩
    intro pr hpr
    simp [runBatch_nil] at hpr
  | cons p rest ih =>
    intro fs
    cases hr : (process_video decoder p root q fs).result with
    | ok u =>
      cases u
      rw [runBatch_cons_ok decoder root q fs p rest hr]
      rcases ih (process_video decoder p root q fs).fs with ⟨h1, h2, h3⟩ |
        ⟨p', e', pre, rest', hl, ho, hres, hpre⟩
      · left
        refine ⟨h1, ?_, ?_⟩
        · simp only [List.map_cons, h2]
        · intro pr hpr
          rcases List.mem_cons.mp hpr with heq | hm
          · rw [heq]
          · exact h3 pr hm
      · right
        refine ⟨p', e', (p, Except.ok ()) :: pre, rest', ?_, ?_, hres, ?_⟩
        · simp only [List.map_cons, List.cons_append, hl]
        · simp only [List.cons_append, ho]
        · intro pr hpr
          rcases List.mem_cons.mp hpr with heq | hm
          · rw [heq]
          · exact hpre pr hm
    | error e =>
      rw [runBatch_cons_err decoder root q fs p rest e hr]
      right
      exact ⟨p, e, [], rest, by simp, by simp, rfl, by simp⟩

end Vid

namespace Vid

/-- C2: deterministic decoder argument contract.  On the fresh-extraction
path (usable stem, no existing output directory, directory creation
succeeds), the external decoder is invoked exactly once, with exactly
this argument list in this order: hardware-acceleration auto flag, the
input file path, the intra-coded-frame select filter, variable-frame-rate
sync, the decimal string of the quality value, thread count 2, error-only
log level, and the pattern `keyframe_%05d.jpg` joined under the output
directory derived from the input's file stem. -/
theorem decoder_argument_contract (decoder : List String → Int) (vp root : RPath)
    (q : Nat) (fs fs2 : Fs) (stem : String)
    (hstem : vp.fileStem = some stem)
    (hex : fs.existsAt (root.join stem) = false)
    (hmk : fs.mkdirAll (root.join stem) = some fs2) :
    (process_video decoder vp root q fs).invocations =
      [["-hwaccel", "auto",
        "-i", vp.toStr,
        "-vf", "select=eq(pict_type\\,I)",
        "-vsync", "vfr",
        "-q:v", toString q,
        "-threads", "2",
        "-loglevel", "error",
        ((root.join stem).join "keyframe_%05d.jpg").toStr]] := by
  rw [process_video_fresh decoder vp root q fs fs2 stem hstem hex hmk]
  split <;> rfl

/-- C2 witness: for quality 5 and input `in/clip.mov` the quality
argument is the string `5` and the output pattern is
`out/clip/keyframe_%05d.jpg`. -/
theorem decoder_argument_contract_witness :
    (process_video (fun _ => 0) ⟨["in", "clip.mov"]⟩ ⟨["out"]⟩ 5 ⟨[]⟩).invocations =
      [["-hwaccel", "auto", "-i", "in/clip.mov", "-vf", "select=eq(pict_type\\,I)",
        "-vsync", "vfr", "-q:v", "5", "-threads", "2", "-loglevel", "error",
        "out/clip/keyframe_%05d.jpg"]] := by
  have h := decoder_argument_contract (fun _ => 0) ⟨["in", "clip.mov"]⟩ ⟨["out"]⟩ 5 ⟨[]⟩
    ⟨[(⟨[]⟩, FsKind.dir), (⟨["out"]⟩, FsKind.dir), (⟨["out", "clip"]⟩, FsKind.dir)]⟩
    "clip" (by decide) (by decide) (by decide)
  rw [h]
  decide

/-- C4: the skip path is a side-effect-free success.  When the derived
output directory already exists as a directory, `process_video` returns
`Ok` at once: the decoder is never invoked (the returned record does not
depend on `decoder` at all), the filesystem is returned unchanged, and
no invocation is recorded. -/
theorem skip_is_pure_success (decoder : List String → Int) (vp root : RPath) (q : Nat)
    (fs : Fs) (stem : String) (hstem : vp.fileStem = some stem)
    (hdir : fs.lookup (root.join stem) = some FsKind.dir) :
    process_video decoder vp root q fs =
      ⟨Except.ok (), fs, [], some (root.join stem)⟩ := by
  apply process_video_skip decoder vp root q fs stem hstem
  unfold Fs.existsAt
  rw [hdir]
  rfl

/-- C4 witness: with `out/clip` already a directory, `clip.mov` is
skipped with no decoder call and an unchanged filesystem. -/
theorem skip_is_pure_success_witness :
    process_video (fun _ => 0) ⟨["clip.mov"]⟩ ⟨["out"]⟩ 2
        ⟨[(⟨["out", "clip"]⟩, FsKind.dir)]⟩ =
      ⟨Except.ok (), ⟨[(⟨["out", "clip"]⟩, FsKind.dir)]⟩, [], some ⟨["out", "clip"]⟩⟩ :=
  skip_is_pure_success (fun _ => 0) ⟨["clip.mov"]⟩ ⟨["out"]⟩ 2
    ⟨[(⟨["out", "clip"]⟩, FsKind.dir)]⟩ "clip" (by decide) (by decide)

/-- C7: `InvalidName` precondition.  A path with no usable file stem
fails with `invalidName` before any directory is created or any decoder
invocation happens (filesystem unchanged, invocation list empty); a path
with a usable stem has its output directory computed as the output root
joined with that stem. -/
theorem invalid_name_gate (decoder : List String → Int) (vp root : RPath) (q : Nat)
    (fs : Fs) :
    (vp.fileStem = none →
      process_video decoder vp root q fs =
        ⟨Except.error ExtractError.invalidName, fs, [], none⟩) ∧
    ∀ stem, vp.fileStem = some stem →
      (process_video decoder vp root q fs).outDir = some (root.join stem) := by
  constructor
  · exact process_video_no_stem decoder vp root q fs
  · intro stem hstem
    by_cases hex : fs.existsAt (root.join stem) = true
    · rw [process_video_skip decoder vp root q fs stem hstem hex]
    · have hex2 : fs.existsAt (root.join stem) = false := by
        cases hc : fs.existsAt (root.join stem)
        · rfl
        · exact absurd hc hex
      cases hmk : fs.mkdirAll (root.join stem) with
      | none => rw [process_video_mkfail decoder vp root q fs stem hstem hex2 hmk]
      | some fs2 =>
        rw [process_video_fresh decoder vp root q fs fs2 stem hstem hex2 hmk]
        split <;> rfl

/-- C7 witness: the stem-less path `..` fails with `invalidName` and
leaves the empty filesystem empty; `clip.mov` gets output directory
`out/clip`. -/
theorem invalid_name_gate_witness :
    process_video (fun _ => 0) ⟨[".."]⟩ ⟨["out"]⟩ 2 ⟨[]⟩ =
      ⟨Except.error ExtractError.invalidName, ⟨[]⟩, [], none⟩ ∧
    (process_video (fun _ => 0) ⟨["clip.mov"]⟩ ⟨["out"]⟩ 2 ⟨[]⟩).outDir =
      some ⟨["out", "clip"]⟩ :=
  ⟨(invalid_name_gate (fun _ => 0) ⟨[".."]⟩ ⟨["out"]⟩ 2 ⟨[]⟩).1 (by decide),
   by
    have h := (invalid_name_gate (fun _ => 0) ⟨["clip.mov"]⟩ ⟨["out"]⟩ 2 ⟨[]⟩).2
      "clip" (by decide)
    rw [h]
    decide⟩

/-- C8: no rollback on decoder failure.  When the decoder exits with a
non-zero status on the fresh-extraction path, `process_video` reports
`decoderError` carrying that exact status, the final filesystem is the
one produced by the directory-creation step (nothing is removed), and
the output directory is still present as a directory on disk. -/
theorem decoder_failure_no_rollback (decoder : List String → Int) (vp root : RPath)
    (q : Nat) (fs fs2 : Fs) (stem : String)
    (hstem : vp.fileStem = some stem)
    (hex : fs.existsAt (root.join stem) = false)
    (hmk : fs.mkdirAll (root.join stem) = some fs2)
    (hfail : decoder (ffmpegArgs vp q ((root.join stem).join "keyframe_%05d.jpg").toStr) ≠ 0) :
    (process_video decoder vp root q fs).result =
      Except.error (ExtractError.decoderError
        (decoder (ffmpegArgs vp q ((root.join stem).join "keyframe_%05d.jpg").toStr))) ∧
    (process_video decoder vp root q fs).fs = fs2 ∧
    fs2.lookup (root.join stem) = some FsKind.dir := by
  rw [process_video_fresh decoder vp root q fs fs2 stem hstem hex hmk]
  rw [if_neg hfail]
  refine ⟨rfl, rfl, ?_⟩
  have hnone : fs.lookup (root.join stem) = none := by
    unfold Fs.existsAt at hex
    cases hc : fs.lookup (root.join stem)
    · rfl
    · rw [hc] at hex; simp at hex
  exact mkdirAll_lookup_dir fs fs2 (root.join stem) hnone hmk

/-- C8 witness: a decoder that always exits 1 yields `decoderError 1` on
`clip.mov`, and `out/clip` is present as a directory afterwards. -/
theorem decoder_failure_no_rollback_witness :
    (process_video (fun _ => 1) ⟨["clip.mov"]⟩ ⟨["out"]⟩ 2 ⟨[]⟩).result =
      Except.error (ExtractError.decoderError 1) ∧
    (process_video (fun _ => 1) ⟨["clip.mov"]⟩ ⟨["out"]⟩ 2 ⟨[]⟩).fs =
      ⟨[(⟨[]⟩, FsKind.dir), (⟨["out"]⟩, FsKind.dir), (⟨["out", "clip"]⟩, FsKind.dir)]⟩ ∧
    Fs.lookup ⟨[(⟨[]⟩, FsKind.dir), (⟨["out"]⟩, FsKind.dir),
        (⟨["out", "clip"]⟩, FsKind.dir)]⟩ ⟨["out", "clip"]⟩ = some FsKind.dir :=
  decoder_failure_no_rollback (fun _ => 1) ⟨["clip.mov"]⟩ ⟨["out"]⟩ 2 ⟨[]⟩
    ⟨[(⟨[]⟩, FsKind.dir), (⟨["out"]⟩, FsKind.dir), (⟨["out", "clip"]⟩, FsKind.dir)]⟩
    "clip" (by decide) (by decide) (by decide) (by decide)

/-- C9: quality pass-through.  For every quality value in the `u8`
interface range, the fresh-extraction path performs no range validation,
clamping, or transformation: the decoder is invoked with exactly the
contract argument list, whose element at index 9 (right after `-q:v`) is
the exact decimal string of the quality value. -/
theorem quality_passthrough (decoder : List String → Int) (vp root : RPath)
    (q : Nat) (fs fs2 : Fs) (stem : String)
    (_hq : q ≤ 255)
    (hstem : vp.fileStem = some stem)
    (hex : fs.existsAt (root.join stem) = false)
    (hmk : fs.mkdirAll (root.join stem) = some fs2) :
    (process_video decoder vp root q fs).invocations =
      [ffmpegArgs vp q ((root.join stem).join "keyframe_%05d.jpg").toStr] ∧
    (ffmpegArgs vp q ((root.join stem).join "keyframe_%05d.jpg").toStr).getD 9 "" =
      toString q := by
  constructor
  · rw [process_video_fresh decoder vp root q fs fs2 stem hstem hex hmk]
    split <;> rfl
  · rfl

/-- C9 witness: quality 0, outside the documented range [1,31], is
passed through untouched as the string `0`. -/
theorem quality_passthrough_witness :
    (process_video (fun _ => 0) ⟨["clip.mov"]⟩ ⟨["out"]⟩ 0 ⟨[]⟩).invocations =
      [ffmpegArgs ⟨["clip.mov"]⟩ 0 "out/clip/keyframe_%05d.jpg"] ∧
    (ffmpegArgs ⟨["clip.mov"]⟩ 0 "out/clip/keyframe_%05d.jpg").getD 9 "" = "0" :=
  quality_passthrough (fun _ => 0) ⟨["clip.mov"]⟩ ⟨["out"]⟩ 0 ⟨[]⟩
    ⟨[(⟨[]⟩, FsKind.dir), (⟨["out"]⟩, FsKind.dir), (⟨["out", "clip"]⟩, FsKind.dir)]⟩
    "clip" (by decide) (by decide) (by decide) (by decide)

end Vid

namespace Vid

/-- C1 counterexample: in a batch of two inputs where only `in/a.mp4`
fails (the decoder exits 1 on it and 0 on everything else, and
`in/b.mp4` alone runs to a successful outcome), the dispatcher stops at
the failure: the list of executed tasks is `[in/a.mp4]` alone, so the
sibling `in/b.mp4` is never run and produces no outcome — refuting the
claim that one task's failure never prevents a sibling from being
executed. -/
theorem dispatcher_not_isolated :
    (process_video (fun args => if args.contains "in/a.mp4" then 1 else 0)
        ⟨["in", "b.mp4"]⟩ ⟨["out"]⟩ 2 ⟨[]⟩).result = Except.ok () ∧
    (runBatch (fun args => if args.contains "in/a.mp4" then 1 else 0) ⟨["out"]⟩ 2 ⟨[]⟩
        [⟨["in", "a.mp4"]⟩, ⟨["in", "b.mp4"]⟩]).2.2 =
      Except.error (⟨["in", "a.mp4"]⟩, ExtractError.decoderError 1) ∧
    (runBatch (fun args => if args.contains "in/a.mp4" then 1 else 0) ⟨["out"]⟩ 2 ⟨[]⟩
        [⟨["in", "a.mp4"]⟩, ⟨["in", "b.mp4"]⟩]).2.1.map Prod.fst =
      [⟨["in", "a.mp4"]⟩] := by decide

/-- C1 amended: the dispatcher is fail-fast, not failure-isolating.  In
the sequential linearization of rayon's `try_for_each`, the tasks
scheduled before the first failing task all complete with successful
outcomes, the failing task's outcome is recorded, and the remaining
sibling tasks are not executed at all (the outcome list ends at the
failure). -/
theorem dispatcher_short_circuit (decoder : List String → Int) (root : RPath)
    (q : Nat) (fs : Fs) (l : List RPath) (p : RPath) (e : ExtractError)
    (h : (runBatch decoder root q fs l).2.2 = Except.error (p, e)) :
    ∃ pre rest, l = pre.map Prod.fst ++ p :: rest ∧
      (runBatch decoder root q fs l).2.1 = pre ++ [(p, Except.error e)] ∧
      ∀ pr ∈ pre, pr.2 = Except.ok () := by
  rcases runBatch_cases decoder root q l fs with ⟨h1, _, _⟩ |
    ⟨p2, e2, pre, rest, hl, ho, hres, hpre⟩
  · rw [h1] at h
    simp at h
  · rw [hres] at h
    simp only [Except.error.injEq, Prod.mk.injEq] at h
    obtain ⟨rfl, rfl⟩ := h
    exact ⟨pre, rest, hl, ho, hpre⟩

/-- C1 amended witness: on the two-element batch whose first task fails,
the executed prefix is empty, the failing outcome is recorded, and the
second task does not appear in the outcome list. -/
theorem dispatcher_short_circuit_witness :
    ∃ (pre : List (RPath × Except ExtractError Unit)) (rest : List RPath),
      ([⟨["in", "a.mp4"]⟩, ⟨["in", "b.mp4"]⟩] : List RPath) =
          pre.map Prod.fst ++ ⟨["in", "a.mp4"]⟩ :: rest ∧
      (runBatch (fun args => if args.contains "in/a.mp4" then 1 else 0) ⟨["out"]⟩ 2 ⟨[]⟩
          [⟨["in", "a.mp4"]⟩, ⟨["in", "b.mp4"]⟩]).2.1 =
        pre ++ [(⟨["in", "a.mp4"]⟩, Except.error (ExtractError.decoderError 1))] ∧
      ∀ pr ∈ pre, pr.2 = Except.ok () :=
  dispatcher_short_circuit (fun args => if args.contains "in/a.mp4" then 1 else 0)
    ⟨["out"]⟩ 2 ⟨[]⟩ [⟨["in", "a.mp4"]⟩, ⟨["in", "b.mp4"]⟩]
    ⟨["in", "a.mp4"]⟩ (ExtractError.decoderError 1) (by decide)

end Vid

namespace Vid

/-- C3 counterexample: with a regular FILE (not a directory) at the
derived path `out/clip`, the already-done check `exists()` returns true
even though no directory exists there — and `process_video` consequently
skips, returning `Ok` with no decoder invocation — refuting the claim
that the check returns false when a non-directory entry is present. -/
theorem gate_true_on_nondir :
    Fs.existsAt ⟨[(⟨["out", "clip"]⟩, FsKind.file)]⟩ ⟨["out", "clip"]⟩ = true ∧
    Fs.lookup ⟨[(⟨["out", "clip"]⟩, FsKind.file)]⟩ ⟨["out", "clip"]⟩ ≠ some FsKind.dir ∧
    (process_video (fun _ => 0) ⟨["clip.mov"]⟩ ⟨["out"]⟩ 2
        ⟨[(⟨["out", "clip"]⟩, FsKind.file)]⟩).result = Except.ok () ∧
    (process_video (fun _ => 0) ⟨["clip.mov"]⟩ ⟨["out"]⟩ 2
        ⟨[(⟨["out", "clip"]⟩, FsKind.file)]⟩).invocations = [] := by decide

/-- C3 amended: the already-done check is `Path::exists`, which is true
iff ANY filesystem entry — directory or not — is present at the derived
output path at call time (and false only when no entry is present).
Stated observationally: for an input with a usable stem, `process_video`
takes the skip path (immediate `Ok` with no decoder invocation) exactly
when some entry of any kind exists at the derived path. -/
theorem skip_iff_any_entry (decoder : List String → Int) (vp root : RPath) (q : Nat)
    (fs : Fs) (stem : String) (hstem : vp.fileStem = some stem) :
    ((process_video decoder vp root q fs).result = Except.ok () ∧
      (process_video decoder vp root q fs).invocations = []) ↔
    fs.existsAt (root.join stem) = true := by
  constructor
  · rintro ⟨hok, hinv⟩
    by_contra hne
    have hex : fs.existsAt (root.join stem) = false := by
      cases hc : fs.existsAt (root.join stem)
      · rfl
      · exact absurd hc hne
    cases hmk : fs.mkdirAll (root.join stem) with
    | none =>
      rw [process_video_mkfail decoder vp root q fs stem hstem hex hmk] at hok
      simp at hok
    | some fs2 =>
      rw [process_video_fresh decoder vp root q fs fs2 stem hstem hex hmk] at hinv
      split at hinv <;> simp at hinv
  · intro hex
    rw [process_video_skip decoder vp root q fs stem hstem hex]
    exact ⟨rfl, rfl⟩

/-- C3 amended witness: a plain file at `out/clip` makes `clip.mov`
skip (immediate success, no decoder invocation). -/
theorem skip_iff_any_entry_witness :
    (process_video (fun _ => 0) ⟨["clip.mov"]⟩ ⟨["out"]⟩ 2
        ⟨[(⟨["out", "clip"]⟩, FsKind.file)]⟩).result = Except.ok () ∧
    (process_video (fun _ => 0) ⟨["clip.mov"]⟩ ⟨["out"]⟩ 2
        ⟨[(⟨["out", "clip"]⟩, FsKind.file)]⟩).invocations = [] :=
  (skip_iff_any_entry (fun _ => 0) ⟨["clip.mov"]⟩ ⟨["out"]⟩ 2
    ⟨[(⟨["out", "clip"]⟩, FsKind.file)]⟩ "clip" (by decide)).mpr (by decide)

/-- C5: PathFilter completeness and soundness.  A path appears in the
discovered set iff some walked entry carries it, is a regular file, and
its extension — lowercased, with `""` for an extension-less file — is a
member of the trimmed, lowercased comma-split allow-list; and the
case-insensitive example holds: `VIDEO.MP4` is discovered under the
allow-list `mp4`. -/
theorem discovery_filter_exact (exts : String) (entries : List DirEntry) (p : RPath) :
    (p ∈ discover exts entries ↔
      ∃ d ∈ entries, d.path = p ∧ d.isFile = true ∧
        (get_video_extensions exts).contains
          (((d.path.extensionOf).map lowerStr).getD "") = true) ∧
    RPath.mk ["VIDEO.MP4"] ∈ discover "mp4" [⟨⟨["VIDEO.MP4"]⟩, true⟩] := by
  constructor
  · unfold discover
    simp only [List.mem_map, List.mem_filter, isEligible, entryExt, Bool.and_eq_true]
    constructor
    · rintro ⟨d, ⟨hmem, hfile, hext⟩, rfl⟩
      exact ⟨d, hmem, rfl, hfile, hext⟩
    · rintro ⟨d, hmem, rfl, hfile, hext⟩
      exact ⟨d, ⟨hmem, hfile, hext⟩, rfl⟩
  · decide

/-- C10: extension-less files are matched against the empty string.  A
regular file with no extension has filter extension `""`, and it is
discovered iff the comma-split allow-list contains a segment that trims
to the empty string (so a trailing comma, or an empty `--extensions`
value, makes every extension-less regular file eligible). -/
theorem extensionless_empty_segment (exts : String) (entries : List DirEntry)
    (p : RPath) (hnoext : p.extensionOf = none) :
    entryExt p = "" ∧
    (p ∈ discover exts entries ↔
      ((get_video_extensions exts).contains "" = true ∧
        ∃ d ∈ entries, d.path = p ∧ d.isFile = true)) := by
  have hext : entryExt p = "" := by
    unfold entryExt
    rw [hnoext]
    rfl
  refine ⟨hext, ?_⟩
  unfold discover
  simp only [List.mem_map, List.mem_filter, isEligible, Bool.and_eq_true]
  constructor
  · rintro ⟨d, ⟨hmem, hfile, hcont⟩, rfl⟩
    rw [hext] at hcont
    exact ⟨hcont, d, hmem, rfl, hfile⟩
  · rintro ⟨hcont, d, hmem, rfl, hfile⟩
    refine ⟨d, ⟨hmem, hfile, ?_⟩, rfl⟩
    rw [hext]
    exact hcont

/-- C10 witness: with the trailing-comma allow-list `mp4,mov,`, the
extension-less regular file `noext` is discovered. -/
theorem extensionless_empty_segment_witness :
    (⟨["noext"]⟩ : RPath) ∈ discover "mp4,mov," [⟨⟨["noext"]⟩, true⟩] :=
  ((extensionless_empty_segment "mp4,mov," [⟨⟨["noext"]⟩, true⟩] ⟨["noext"]⟩
      (by decide)).2).mpr (by decide)

/-- C6: aggregate exit contract.  The dispatcher's overall result is
`Ok` (exit status 0) iff every input in the batch was executed and every
executed task's outcome is a success (the empty batch included); and
whenever the overall result is an error it carries the first failing
task's input path and error, all outcomes before it being successes. -/
theorem exit_status_aggregation (decoder : List String → Int) (root : RPath)
    (q : Nat) (fs : Fs) (l : List RPath) :
    ((runBatch decoder root q fs l).2.2 = Except.ok () ↔
      ((runBatch decoder root q fs l).2.1.map Prod.fst = l ∧
        ∀ pr ∈ (runBatch decoder root q fs l).2.1, pr.2 = Except.ok ())) ∧
    (∀ p e, (runBatch decoder root q fs l).2.2 = Except.error (p, e) →
      ∃ pre, (runBatch decoder root q fs l).2.1 = pre ++ [(p, Except.error e)] ∧
        ∀ pr ∈ pre, pr.2 = Except.ok ()) := by
  rcases runBatch_cases decoder root q l fs with ⟨h1, h2, h3⟩ |
    ⟨p2, e2, pre, rest, hl, ho, hres, hpre⟩
  · constructor
    · exact ⟨fun _ => ⟨h2, h3⟩, fun _ => h1⟩
    · intro p e hcontra
      rw [h1] at hcontra
      simp at hcontra
  · constructor
    · constructor
      · intro hok
        rw [hres] at hok
        simp at hok
      · rintro ⟨_, hok⟩
        have hmem : (p2, Except.error e2) ∈ (runBatch decoder root q fs l).2.1 := by
          rw [ho]
          simp
        have hbad := hok _ hmem
        simp at hbad
    · intro p e hre
      rw [hres] at hre
      simp only [Except.error.injEq, Prod.mk.injEq] at hre
      obtain ⟨rfl, rfl⟩ := hre
      exact ⟨pre, ho, hpre⟩

/-- C6 witness: the empty batch exits 0, and a one-element batch whose
decoder exits 1 reports that input's path with its decoder error, with
an all-success (empty) prefix. -/
theorem exit_status_aggregation_witness :
    (runBatch (fun _ => 0) ⟨["out"]⟩ 2 ⟨[]⟩ []).2.2 = Except.ok () ∧
    ∃ pre, (runBatch (fun _ => 1) ⟨["out"]⟩ 2 ⟨[]⟩ [⟨["clip.mov"]⟩]).2.1 =
        pre ++ [(⟨["clip.mov"]⟩, Except.error (ExtractError.decoderError 1))] ∧
      ∀ pr ∈ pre, pr.2 = Except.ok () :=
  ⟨(exit_status_aggregation (fun _ => 0) ⟨["out"]⟩ 2 ⟨[]⟩ []).1.mpr (by decide),
   (exit_status_aggregation (fun _ => 1) ⟨["out"]⟩ 2 ⟨[]⟩ [⟨["clip.mov"]⟩]).2
     ⟨["clip.mov"]⟩ (ExtractError.decoderError 1) (by decide)⟩

end Vid
